import Mathlib

/-!
Shallow embedding of the STM32F103 USB peripheral driver (`src/bus.rs`)
together with the packet-memory / register support it relies on.  Hardware
registers are modelled as fields of an explicit driver state; the driver
operations become pure state-passing functions returning `Except` results.

The `regs` module (endpoint count, packet-memory arena, receive-size
encoder, register view) is not part of the provided sources; the
definitions for it below are modelled from the specification and say so in
their doc comments.  Everything else is translated directly from
`src/bus.rs`.
-/

namespace Stm32Usb

/-- Error taxonomy of the upward `usb-device` contract (spec section 7). -/
inductive UsbError where
  | endpointTaken
  | endpointOverflow
  | invalidEndpoint
  | busy
  | noData
  | bufferOverflow
  | unsupported
deriving DecidableEq, Repr

/-- Endpoint transfer types of the upward contract. -/
inductive EndpointType where
  | control
  | isochronous
  | bulk
  | interrupt
deriving DecidableEq, Repr

/-- Transfer direction; `dIn` carries address bit 7 (0x80), `dOut` carries 0. -/
inductive EndpointDirection where
  | dOut
  | dIn
deriving DecidableEq, Repr

/-- The numeric discriminant of the direction (`ep_dir as u8` in the source). -/
def EndpointDirection.bit : EndpointDirection → Nat
  | .dOut => 0x00
  | .dIn  => 0x80

/-- Modelled from the spec: 2-bit per-direction endpoint status
{Disabled, Stall, Nak, Valid} (spec section 3, "Endpoint Status"); the
`EndpointStatus` enum lives in the missing `regs` module. -/
inductive EndpointStatus where
  | disabled
  | stall
  | nak
  | valid
deriving DecidableEq, Repr

/-- Modelled from the spec: the hardware endpoint count `NUM_ENDPOINTS`
from the missing `regs` module ("index 0..N, N fixed by hardware, e.g. 8"). -/
def NUM_ENDPOINTS : Nat := 8

/-- Per-slot software endpoint record (`EndpointRecord` in `bus.rs`). -/
structure EndpointRecord where
  ep_type : Option EndpointType
  out_valid : Bool
  in_valid : Bool
deriving DecidableEq, Repr

/-- Modelled from the spec: one buffer descriptor of the descriptor table —
transmit address, transmit count, receive address, receive count/encoding
field (spec section 3, "Buffer Descriptor"). -/
structure BufferDescriptor where
  addr_tx : Nat
  count_tx : Nat
  addr_rx : Nat
  count_rx : Nat
deriving DecidableEq, Repr

/-- Modelled from the spec: the observable fields of one endpoint's
control/status register as exposed by the `EpReg` register view — the 2-bit
status per direction, the transfer-complete flags and the SETUP marker
(spec sections 4.2 and 6).  The toggle-write mechanics are internal to the
register view; `set_status` is specified to transition the field to exactly
the target value, which is how updates are modelled here. -/
structure EpReg where
  stat_tx : EndpointStatus
  stat_rx : EndpointStatus
  ctr_tx : Bool
  ctr_rx : Bool
  setup : Bool
deriving DecidableEq, Repr

/-- Latched interrupt-status register bits read by `poll`. -/
structure IstrBits where
  wkup : Bool
  reset : Bool
  susp : Bool
  ctr : Bool
deriving DecidableEq, Repr

/-- Line-state bits (D+, D-) of the frame-number register. -/
structure FnrBits where
  rxdp : Bool
  rxdm : Bool
deriving DecidableEq, Repr

/-- Result variants of `poll` (the `PollResult` of the upward contract). -/
inductive PollResult where
  | resultNone
  | reset
  | suspend
  | resume
  | data (ep_out ep_in_complete ep_setup : Nat)
deriving DecidableEq, Repr

/-- Modelled from the spec: total size in bytes of the packet memory area
(512 bytes on this part), capacity bound of the bump allocator. -/
def PMA_SIZE : Nat := 512

/-- Modelled from the spec: the buffer-descriptor table occupies the base of
the packet memory, sized for the maximum endpoint count (8 bytes of PMA
address space per endpoint slot). -/
def BTABLE_SIZE : Nat := NUM_ENDPOINTS * 8

/-- Driver state: endpoint records, cached highest allocated index, the
descriptor table, the per-endpoint registers, the arena's bump pointer and
byte contents, and the latched interrupt / frame-number register bits. -/
structure UsbBusState where
  endpoints : Fin NUM_ENDPOINTS → EndpointRecord
  max_endpoint : Nat
  descrs : Fin NUM_ENDPOINTS → BufferDescriptor
  ep_regs : Fin NUM_ENDPOINTS → EpReg
  pma_free : Nat
  mem : Nat → Nat
  istr : IstrBits
  fnr : FnrBits

/-- Freshly constructed driver: empty endpoint table, descriptor table at
the arena base, all endpoint registers disabled, no pending events. -/
def freshState : UsbBusState where
  endpoints := fun _ => ⟨none, false, false⟩
  max_endpoint := 0
  descrs := fun _ => ⟨0, 0, 0, 0⟩
  ep_regs := fun _ => ⟨.disabled, .disabled, false, false, false⟩
  pma_free := BTABLE_SIZE
  mem := fun _ => 0
  istr := ⟨false, false, false, false⟩
  fnr := ⟨false, false⟩

/-- Modelled from the spec: the bump allocator `PacketMemory::alloc` —
rounds the size to the 2-byte word granularity, fails with an overflow
error when capacity is exhausted, otherwise returns the offset and the new
bump pointer (spec section 4.1). -/
def pmaAlloc (free size : Nat) : Except UsbError (Nat × Nat) :=
  let size := (size + 1) / 2 * 2
  if free + size ≤ PMA_SIZE then .ok (free, free + size)
  else .error .endpointOverflow

/-- Modelled from the spec: the 2-field hardware receive-size encoding —
block-unit selector (`blsize`) plus block count (spec section 3,
"Receive-Size Encoding"). -/
structure CountRx where
  blsize : Bool
  num_block : Nat
deriving DecidableEq, Repr

/-- Numeric register image of the encoding (BLSIZE in bit 15, NUM_BLOCK in
bits 14:10), the value stored into the descriptor's `count_rx` field. -/
def CountRx.toBits (c : CountRx) : Nat :=
  (if c.blsize then 0x8000 else 0) ||| (c.num_block <<< 10)

/-- Effective maximum receive capacity obtained by decoding the 2-field
encoding back: fine regime counts 2-byte blocks, coarse regime counts
32-byte blocks with the stored count one less than the block count. -/
def CountRx.maxSize (c : CountRx) : Nat :=
  if c.blsize then (c.num_block + 1) * 32 else c.num_block * 2

/-- Modelled from the spec: `calculate_count_rx` of the missing `regs`
module — computes the rounded allocation size and the 2-field hardware
encoding for a desired maximum receive size; fine granularity (2-byte
blocks, up to 62 bytes) for small sizes, coarse granularity (32-byte
blocks, up to 1024 bytes) for large ones; sizes above the maximum
representable value fail with an overflow error (spec section 4.1). -/
def calculate_count_rx (size : Nat) : Except UsbError (Nat × CountRx) :=
  if size ≤ 62 then
    let rounded := (size + 1) / 2 * 2
    .ok (rounded, ⟨false, rounded / 2⟩)
  else if size ≤ 1024 then
    let rounded := (size + 31) / 32 * 32
    .ok (rounded, ⟨true, rounded / 32 - 1⟩)
  else
    .error .endpointOverflow

/-- Transfer-complete scan of `poll` (`bus.rs` lines 216-239): walk the
endpoint registers from index 0 through the cached highest allocated index,
accumulate the `ep_out` / `ep_in_complete` / `ep_setup` bit masks, and clear
each set `ctr_tx` flag as a side effect. -/
def ctrScan (regs : Fin NUM_ENDPOINTS → EpReg) (maxEp : Nat) :
    Nat × Nat × Nat × (Fin NUM_ENDPOINTS → EpReg) :=
  (List.finRange NUM_ENDPOINTS).foldl
    (fun acc i =>
      if i.val ≤ maxEp then
        let v := acc.2.2.2 i
        let ep_out := if v.ctr_rx then acc.1 ||| (1 <<< i.val) else acc.1
        let ep_setup :=
          if v.ctr_rx ∧ v.setup then acc.2.2.1 ||| (1 <<< i.val) else acc.2.2.1
        let ep_in_complete :=
          if v.ctr_tx then acc.2.1 ||| (1 <<< i.val) else acc.2.1
        let regs :=
          if v.ctr_tx then Function.update acc.2.2.2 i { v with ctr_tx := false }
          else acc.2.2.2
        (ep_out, ep_in_complete, ep_setup, regs)
      else acc)
    (0, 0, 0, regs)

/-- Interrupt-status decoder (`poll`, `bus.rs` lines 188-246): wakeup bit
first (clearing it and sampling the line state), then reset, then suspend,
then transfer complete, else none. -/
def poll (s : UsbBusState) : PollResult × UsbBusState :=
  if s.istr.wkup then
    let s := { s with istr := { s.istr with wkup := false } }
    match s.fnr.rxdp, s.fnr.rxdm with
    | false, false => (.resume, s)
    | false, true  => (.resume, s)
    | _, _ => (.suspend, s)
  else if s.istr.reset then
    (.reset, { s with istr := { s.istr with reset := false } })
  else if s.istr.susp then
    (.suspend, { s with istr := { s.istr with susp := false } })
  else if s.istr.ctr then
    let r := ctrScan s.ep_regs s.max_endpoint
    (.data r.1 r.2.1 r.2.2.1, { s with ep_regs := r.2.2.2 })
  else
    (.resultNone, s)

/-- Transmit path (`write`, `bus.rs` lines 248-279).  The caller's byte
slice is a `List Nat`; the result pairs the returned count or error with
the post-state.  `packet_mem.write` is modelled from the spec as a byte
copy into the arena at the descriptor's transmit address. -/
def write (s : UsbBusState) (ep_addr : Nat) (buf : List Nat) :
    Except UsbError Nat × UsbBusState :=
  if ep_addr &&& 0x80 = 0 then
    (.error .invalidEndpoint, s)
  else
    let ep := ep_addr &&& 0x7f
    if h : NUM_ENDPOINTS ≤ ep then
      (.error .invalidEndpoint, s)
    else
      let i : Fin NUM_ENDPOINTS := ⟨ep, by omega⟩
      let reg := s.ep_regs i
      match reg.stat_tx with
      | .valid => (.error .busy, s)
      | .disabled => (.error .invalidEndpoint, s)
      | _ =>
        let bd := s.descrs i
        let mem' := fun a =>
          if bd.addr_tx ≤ a ∧ a < bd.addr_tx + buf.length then
            buf.getD (a - bd.addr_tx) 0
          else s.mem a
        (.ok buf.length,
          { s with
            mem := mem'
            descrs := Function.update s.descrs i { bd with count_tx := buf.length }
            ep_regs := Function.update s.ep_regs i { reg with stat_tx := .valid } })

/-- Receive path (`read`, `bus.rs` lines 281-315).  The middle component of
the result is the list of bytes copied into the caller's buffer (empty on
every error path); `packet_mem.read` is modelled from the spec as a byte
copy out of the arena filling the caller's buffer. -/
def read (s : UsbBusState) (ep : Nat) (bufLen : Nat) :
    Except UsbError Nat × List Nat × UsbBusState :=
  if ep &&& 0x80 ≠ 0 then
    (.error .invalidEndpoint, [], s)
  else if h : NUM_ENDPOINTS ≤ ep then
    (.error .invalidEndpoint, [], s)
  else
    let i : Fin NUM_ENDPOINTS := ⟨ep, by omega⟩
    let reg := s.ep_regs i
    if reg.stat_rx = .disabled then
      (.error .invalidEndpoint, [], s)
    else if reg.ctr_rx = false then
      (.error .noData, [], s)
    else
      let bd := s.descrs i
      let count := bd.count_rx &&& 0x3f
      if bufLen < count then
        (.error .bufferOverflow, [], s)
      else
        let bytes := (List.range bufLen).map fun k => s.mem (bd.addr_rx + k)
        (.ok count, bytes,
          { s with
            ep_regs := Function.update s.ep_regs i
              { reg with ctr_rx := false, stat_rx := .valid } })

/-- Endpoint halt (`stall`, `bus.rs` lines 317-325).  The source indexes
the fixed-size register array without a range check; the total embedding
returns `none` exactly when that access is out of bounds. -/
def stall (s : UsbBusState) (ep : Nat) : Option UsbBusState :=
  if ep &&& 0x80 ≠ 0 then
    if h : ep &&& 0x7f < NUM_ENDPOINTS then
      let i : Fin NUM_ENDPOINTS := ⟨ep &&& 0x7f, h⟩
      some { s with ep_regs :=
        Function.update s.ep_regs i { s.ep_regs i with stat_tx := .stall } }
    else none
  else
    if h : ep < NUM_ENDPOINTS then
      let i : Fin NUM_ENDPOINTS := ⟨ep, h⟩
      some { s with ep_regs :=
        Function.update s.ep_regs i { s.ep_regs i with stat_rx := .stall } }
    else none

/-- Endpoint unhalt (`unstall`, `bus.rs` lines 327-341): only a Stall
status is changed, back to Nak for IN and Valid for OUT; as in `stall`, the
unchecked register-array access is total via `Option`. -/
def unstall (s : UsbBusState) (ep : Nat) : Option UsbBusState :=
  if h : ep &&& 0x7f < NUM_ENDPOINTS then
    let i : Fin NUM_ENDPOINTS := ⟨ep &&& 0x7f, h⟩
    let reg := s.ep_regs i
    if ep &&& 0x80 ≠ 0 then
      if reg.stat_tx = .stall then
        some { s with ep_regs :=
          Function.update s.ep_regs i { reg with stat_tx := .nak } }
      else some s
    else
      if reg.stat_rx = .stall then
        some { s with ep_regs :=
          Function.update s.ep_regs i { reg with stat_rx := .valid } }
      else some s
  else none

/-- Search loop of `alloc_ep` (`bus.rs` lines 84-129), structurally
recursive on a fuel argument; `alloc_ep` supplies `NUM_ENDPOINTS + 1` units
of fuel, more than the loop can ever consume, because each iteration either
returns or increments `index`, and an iteration with
`index ≥ NUM_ENDPOINTS` always returns.  Mutations of the endpoint table
made before a failing step persist in the returned state, exactly as the
`&mut self` mutations do in the source. -/
def alloc_ep_loop (ep_dir : EndpointDirection) (ep_addr : Option Nat)
    (ep_type : EndpointType) (max_packet_size : Nat) :
    Nat → UsbBusState → Nat → Except UsbError Nat × UsbBusState
  | 0, s, _ => (.error .endpointOverflow, s)
  | fuel + 1, s, index =>
    if ep_addr.any fun a => index != a then
      (.error .endpointTaken, s)
    else if _h : NUM_ENDPOINTS ≤ index then
      (.error .endpointOverflow, s)
    else
      let i : Fin NUM_ENDPOINTS := ⟨index, by omega⟩
      let ep := s.endpoints i
      let mismatch := match ep.ep_type with
        | some t => t != ep_type
        | none => false
      let s :=
        if ep.ep_type = none then
          { s with endpoints :=
            Function.update s.endpoints i { ep with ep_type := some ep_type } }
        else s
      if mismatch then
        alloc_ep_loop ep_dir ep_addr ep_type max_packet_size fuel s (index + 1)
      else
        match ep_dir with
        | .dOut =>
          if (s.endpoints i).out_valid then
            alloc_ep_loop ep_dir ep_addr ep_type max_packet_size fuel s (index + 1)
          else
            match calculate_count_rx max_packet_size with
            | .error e => (.error e, s)
            | .ok (out_size, bits) =>
              match pmaAlloc s.pma_free out_size with
              | .error e => (.error e, s)
              | .ok (addr_rx, free') =>
                let bd := s.descrs i
                (.ok (index ||| ep_dir.bit),
                  { s with
                    descrs := Function.update s.descrs i
                      { bd with addr_rx := addr_rx, count_rx := bits.toBits }
                    endpoints := Function.update s.endpoints i
                      { s.endpoints i with out_valid := true }
                    pma_free := free' })
        | .dIn =>
          if (s.endpoints i).in_valid then
            alloc_ep_loop ep_dir ep_addr ep_type max_packet_size fuel s (index + 1)
          else
            match pmaAlloc s.pma_free max_packet_size with
            | .error e => (.error e, s)
            | .ok (addr_tx, free') =>
              let bd := s.descrs i
              (.ok (index ||| ep_dir.bit),
                { s with
                  descrs := Function.update s.descrs i
                    { bd with addr_tx := addr_tx, count_tx := 0 }
                  endpoints := Function.update s.endpoints i
                    { s.endpoints i with in_valid := true }
                  pma_free := free' })

/-- Endpoint allocation (`alloc_ep`, `bus.rs` lines 78-133): a requested
address is masked to its 7-bit index and pins the search; otherwise the
search starts at index 1. -/
def alloc_ep (s : UsbBusState) (ep_dir : EndpointDirection)
    (ep_addr : Option Nat) (ep_type : EndpointType) (max_packet_size : Nat) :
    Except UsbError Nat × UsbBusState :=
  let ep_addr := ep_addr.map fun a => a &&& 0x7f
  alloc_ep_loop ep_dir ep_addr ep_type max_packet_size (NUM_ENDPOINTS + 1) s
    (ep_addr.getD 1)

/-- Driver state reached by the spec's fresh-driver scenario after the
first allocation, `alloc_ep(Out, none, Bulk, 64)`. -/
def stateAfterBulkOut : UsbBusState :=
  (alloc_ep freshState .dOut none .bulk 64).2

set_option maxRecDepth 100000 in
/-- An 8-bit value with bit 7 clear is unchanged by masking to 7 bits. -/
theorem land127_of_bit7_clear :
    ∀ ep, ep < 256 → ep &&& 0x80 = 0 → ep &&& 0x7f = ep := by
  decide

set_option maxRecDepth 100000 in
/-- C1: on a fresh driver, `alloc_ep(Out, none, Bulk, 64)` returns address
0x01 (index 1), and the subsequent `alloc_ep(In, none, Bulk, 64)` returns
0x81 — the same index, because the slot's type matches and the In direction
was still free. -/
theorem alloc_ep_fresh_bulk_scenario :
    (alloc_ep freshState .dOut none .bulk 64).1 = .ok 0x01 ∧
    (alloc_ep stateAfterBulkOut .dIn none .bulk 64).1 = .ok 0x81 :=
  ⟨rfl, rfl⟩

/-- C7: requesting the fixed address 1 with type Interrupt after index 1
has already been typed Bulk fails with `EndpointTaken`. -/
theorem alloc_ep_taken_scenario :
    (alloc_ep stateAfterBulkOut .dOut (some 1) .interrupt 8).1 =
      .error .endpointTaken :=
  rfl

/-- C10: `alloc_ep` is not atomic on failure — starting from a fresh
driver, an Out allocation whose receive-size encoding fails (requested size
above the maximum representable 1024) returns `EndpointOverflow`, yet slot
1's type has already been set to the requested type in the returned
state. -/
theorem alloc_ep_mutates_on_failure (ty : EndpointType) (mps : Nat)
    (h : 1024 < mps) :
    (alloc_ep freshState .dOut none ty mps).1 = .error .endpointOverflow ∧
    ((alloc_ep freshState .dOut none ty mps).2.endpoints
        ⟨1, by decide⟩).ep_type = some ty := by
  have h62 : ¬ mps ≤ 62 := by omega
  have h1024 : ¬ mps ≤ 1024 := by omega
  simp [alloc_ep, alloc_ep_loop, freshState, calculate_count_rx, h62, h1024,
    NUM_ENDPOINTS, Function.update_same]

/-- Closed instance of `alloc_ep_mutates_on_failure` at requested size
2000. -/
theorem alloc_ep_mutates_on_failure_witness :
    (alloc_ep freshState .dOut none .bulk 2000).1 = .error .endpointOverflow ∧
    ((alloc_ep freshState .dOut none .bulk 2000).2.endpoints
        ⟨1, by decide⟩).ep_type = some .bulk :=
  alloc_ep_mutates_on_failure .bulk 2000 (by decide)

/-- C6: for every representable requested size (at most 1024), the
receive-size encoder returns a rounded size at least the request together
with an encoding whose decoded effective capacity is at least the request;
larger sizes fail with an overflow error. -/
theorem calculate_count_rx_sound (size : Nat) :
    (size ≤ 1024 →
      ∃ rounded enc, calculate_count_rx size = .ok (rounded, enc) ∧
        size ≤ rounded ∧ size ≤ enc.maxSize) ∧
    (1024 < size → calculate_count_rx size = .error .endpointOverflow) := by
  constructor
  · intro hle
    by_cases h62 : size ≤ 62
    · refine ⟨(size + 1) / 2 * 2, ⟨false, (size + 1) / 2 * 2 / 2⟩, ?_, ?_, ?_⟩
      · simp [calculate_count_rx, h62]
      · omega
      · simp [CountRx.maxSize]
        omega
    · refine ⟨(size + 31) / 32 * 32, ⟨true, (size + 31) / 32 * 32 / 32 - 1⟩,
        ?_, ?_, ?_⟩
      · simp [calculate_count_rx, h62, hle]
      · omega
      · simp only [CountRx.maxSize, if_true]
        omega
  · intro hgt
    have h62 : ¬ size ≤ 62 := by omega
    have h1024 : ¬ size ≤ 1024 := by omega
    simp [calculate_count_rx, h62, h1024]

/-- Closed instance of `calculate_count_rx_sound` at the representable size
64 and the unrepresentable size 1025. -/
theorem calculate_count_rx_sound_witness :
    (∃ rounded enc, calculate_count_rx 64 = .ok (rounded, enc) ∧
      64 ≤ rounded ∧ 64 ≤ enc.maxSize) ∧
    calculate_count_rx 1025 = .error .endpointOverflow :=
  ⟨(calculate_count_rx_sound 64).1 (by decide),
   (calculate_count_rx_sound 1025).2 (by decide)⟩

/-- C2: `poll` decodes the interrupt status with fixed priority — wakeup
first (yielding the line-state-derived Resume/Suspend), then reset, then
suspend, then transfer complete (yielding the scan's Data masks), else
None; in particular a status with both the wakeup and reset bits set never
yields Reset. -/
theorem poll_priority (s : UsbBusState) :
    (s.istr.wkup = true →
      (poll s).1 = if s.fnr.rxdp = false then .resume else .suspend) ∧
    (s.istr.wkup = false → s.istr.reset = true → (poll s).1 = .reset) ∧
    (s.istr.wkup = false → s.istr.reset = false → s.istr.susp = true →
      (poll s).1 = .suspend) ∧
    (s.istr.wkup = false → s.istr.reset = false → s.istr.susp = false →
      s.istr.ctr = true →
      (poll s).1 = .data (ctrScan s.ep_regs s.max_endpoint).1
        (ctrScan s.ep_regs s.max_endpoint).2.1
        (ctrScan s.ep_regs s.max_endpoint).2.2.1) ∧
    (s.istr.wkup = false → s.istr.reset = false → s.istr.susp = false →
      s.istr.ctr = false → (poll s).1 = .resultNone) ∧
    (s.istr.wkup = true → s.istr.reset = true → (poll s).1 ≠ .reset) := by
  obtain ⟨eps, me, ds, regs, pf, m, ⟨w, r, su, c⟩, ⟨dp, dm⟩⟩ := s
  cases w <;> cases r <;> cases su <;> cases c <;> cases dp <;> cases dm <;>
    simp [poll]

/-- Driver state with both the wakeup and reset interrupt bits latched and
an idle (resume-signalling) line state. -/
def pollWakeupResetState : UsbBusState :=
  { freshState with istr := ⟨true, true, false, false⟩ }

/-- Closed instance of `poll_priority`: with wakeup and reset both set the
result is the wakeup-derived Resume, not Reset. -/
theorem poll_priority_witness :
    (poll pollWakeupResetState).1 = .resume ∧
    (poll pollWakeupResetState).1 ≠ .reset := by
  refine ⟨?_, (poll_priority pollWakeupResetState).2.2.2.2.2 rfl rfl⟩
  have h := (poll_priority pollWakeupResetState).1 rfl
  simpa [pollWakeupResetState, freshState] using h

/-- C4: in the wakeup branch of `poll` the sampled line state decodes as —
(D+ low, D- low) and (D+ low, D- high) yield Resume, while (D+ high, D-
low) and (D+ high, D- high) yield Suspend: D+ low means genuine resume
regardless of D-. -/
theorem poll_wakeup_line_state (s : UsbBusState) (hw : s.istr.wkup = true) :
    (s.fnr.rxdp = false → s.fnr.rxdm = false → (poll s).1 = .resume) ∧
    (s.fnr.rxdp = false → s.fnr.rxdm = true → (poll s).1 = .resume) ∧
    (s.fnr.rxdp = true → s.fnr.rxdm = false → (poll s).1 = .suspend) ∧
    (s.fnr.rxdp = true → s.fnr.rxdm = true → (poll s).1 = .suspend) := by
  obtain ⟨eps, me, ds, regs, pf, m, ⟨w, r, su, c⟩, ⟨dp, dm⟩⟩ := s
  cases w <;> cases dp <;> cases dm <;> simp_all [poll]

/-- Closed instance of `poll_wakeup_line_state` at line state
(D+ low, D- low). -/
theorem poll_wakeup_line_state_witness :
    (poll pollWakeupResetState).1 = PollResult.resume :=
  (poll_wakeup_line_state pollWakeupResetState rfl).1 rfl rfl

/-- C3: `read` never copies more bytes than the destination buffer's
length, and — for a valid OUT endpoint with a packet pending — it returns
`BufferOverflow` exactly when the received count, obtained by masking the
descriptor's count field to its low 6 bits, exceeds the buffer length. -/
theorem read_bounds (s : UsbBusState) (ep bufLen : Nat) :
    (read s ep bufLen).2.1.length ≤ bufLen ∧
    (∀ (_h80 : ep &&& 0x80 = 0) (hlt : ep < NUM_ENDPOINTS),
      (s.ep_regs ⟨ep, hlt⟩).stat_rx ≠ .disabled →
      (s.ep_regs ⟨ep, hlt⟩).ctr_rx = true →
      ((read s ep bufLen).1 = .error .bufferOverflow ↔
        bufLen < (s.descrs ⟨ep, hlt⟩).count_rx &&& 0x3f)) := by
  constructor
  · unfold read
    split
    · simp
    · split
      · simp
      · simp only []
        split
        · simp
        · split
          · simp
          · split
            · simp
            · simp
  · intro h80 hlt hdis hctr
    have hnle : ¬ NUM_ENDPOINTS ≤ ep := Nat.not_le.mpr hlt
    by_cases hov : bufLen < (s.descrs ⟨ep, hlt⟩).count_rx &&& 0x3f <;>
      simp [read, h80, hnle, hdis, hctr, hov]

/-- Driver state with a 5-byte packet pending on OUT endpoint 1 (receive
status Valid, `ctr_rx` latched, descriptor count field 5). -/
def pendingReadState : UsbBusState :=
  { freshState with
    ep_regs := Function.update freshState.ep_regs ⟨1, by decide⟩
      ⟨.nak, .valid, false, true, false⟩
    descrs := Function.update freshState.descrs ⟨1, by decide⟩ ⟨0, 0, 100, 5⟩ }

/-- Closed instance of `read_bounds`: a 2-byte buffer against the pending
5-byte packet gives `BufferOverflow`, and no more than 2 bytes are ever
copied. -/
theorem read_bounds_witness :
    (read pendingReadState 1 2).2.1.length ≤ 2 ∧
    (read pendingReadState 1 2).1 = .error .bufferOverflow := by
  refine ⟨(read_bounds pendingReadState 1 2).1, ?_⟩
  exact ((read_bounds pendingReadState 1 2).2 (by decide) (by decide)
    (by decide) (by decide)).mpr (by decide)

/-- C5: `write` returns `InvalidEndpoint` when the direction bit is clear,
the index is out of range, or transmit status is Disabled; `Busy` when
transmit status is Valid; otherwise it copies the bytes into the arena at
the slot's transmit address, records the byte count in the descriptor, arms
the transfer by setting transmit status to Valid, and returns the number of
bytes written. -/
theorem write_behavior (s : UsbBusState) (ep_addr : Nat) (buf : List Nat) :
    (ep_addr &&& 0x80 = 0 →
      (write s ep_addr buf).1 = .error .invalidEndpoint) ∧
    (ep_addr &&& 0x80 ≠ 0 → NUM_ENDPOINTS ≤ ep_addr &&& 0x7f →
      (write s ep_addr buf).1 = .error .invalidEndpoint) ∧
    (∀ (_h80 : ep_addr &&& 0x80 ≠ 0) (hlt : ep_addr &&& 0x7f < NUM_ENDPOINTS),
      ((s.ep_regs ⟨ep_addr &&& 0x7f, hlt⟩).stat_tx = .valid →
        (write s ep_addr buf).1 = .error .busy) ∧
      ((s.ep_regs ⟨ep_addr &&& 0x7f, hlt⟩).stat_tx = .disabled →
        (write s ep_addr buf).1 = .error .invalidEndpoint) ∧
      ((s.ep_regs ⟨ep_addr &&& 0x7f, hlt⟩).stat_tx ≠ .valid →
       (s.ep_regs ⟨ep_addr &&& 0x7f, hlt⟩).stat_tx ≠ .disabled →
        (write s ep_addr buf).1 = .ok buf.length ∧
        ((write s ep_addr buf).2.descrs ⟨ep_addr &&& 0x7f, hlt⟩).count_tx =
          buf.length ∧
        ((write s ep_addr buf).2.ep_regs ⟨ep_addr &&& 0x7f, hlt⟩).stat_tx =
          .valid ∧
        ∀ k, k < buf.length →
          (write s ep_addr buf).2.mem
              ((s.descrs ⟨ep_addr &&& 0x7f, hlt⟩).addr_tx + k) =
            buf.getD k 0)) := by
  refine ⟨?_, ?_, ?_⟩
  · intro h80
    simp [write, h80]
  · intro h80 hge
    simp [write, h80, dif_pos hge]
  · intro h80 hlt
    refine ⟨?_, ?_, ?_⟩
    · intro hval
      simp only [write, if_neg h80, dif_neg (Nat.not_le.mpr hlt)]
      split <;> simp_all
    · intro hdis
      simp only [write, if_neg h80, dif_neg (Nat.not_le.mpr hlt)]
      split <;> simp_all
    · intro hval hdis
      have hnle : ¬ NUM_ENDPOINTS ≤ ep_addr &&& 0x7f := Nat.not_le.mpr hlt
      cases hst : (s.ep_regs ⟨ep_addr &&& 0x7f, hlt⟩).stat_tx with
      | disabled => exact absurd hst hdis
      | valid => exact absurd hst hval
      | stall =>
        refine ⟨by simp [write, h80, hnle, hst],
          by simp [write, h80, hnle, hst, Function.update_same],
          by simp [write, h80, hnle, hst, Function.update_same], ?_⟩
        intro k hk
        simp [write, h80, hnle, hst, Nat.le_add_right, Nat.add_lt_add_iff_left,
          hk, Nat.add_sub_cancel_left]
      | nak =>
        refine ⟨by simp [write, h80, hnle, hst],
          by simp [write, h80, hnle, hst, Function.update_same],
          by simp [write, h80, hnle, hst, Function.update_same], ?_⟩
        intro k hk
        simp [write, h80, hnle, hst, Nat.le_add_right, Nat.add_lt_add_iff_left,
          hk, Nat.add_sub_cancel_left]

/-- Closed instance of `write_behavior`: writing three bytes to the armed
IN endpoint 0x81 of `pendingReadState` (transmit status Nak) succeeds with
count 3 and records the count in the descriptor. -/
theorem write_behavior_witness :
    (write pendingReadState 0x81 [7, 8, 9]).1 = .ok 3 ∧
    ((write pendingReadState 0x81 [7, 8, 9]).2.descrs
        ⟨1, by decide⟩).count_tx = 3 ∧
    (write pendingReadState 0x81 [7, 8, 9]).1 ≠ .error .busy := by
  have h := ((write_behavior pendingReadState 0x81 [7, 8, 9]).2.2
    (by decide) (by decide)).2.2 (by decide) (by decide)
  exact ⟨h.1, h.2.1, by rw [h.1]; simp⟩

/-- C8: for an in-range endpoint address and any initial status, `stall`
followed by `unstall` leaves the addressed direction in its ready status —
Nak for IN, Valid for OUT — and `unstall` on an endpoint whose status is
not Stall returns the state unchanged. -/
theorem stall_unstall_round_trip (s : UsbBusState) (ep : Nat) (hep : ep < 256)
    (hlt : ep &&& 0x7f < NUM_ENDPOINTS) :
    (∃ s1 s2, stall s ep = some s1 ∧ unstall s1 ep = some s2 ∧
      (ep &&& 0x80 ≠ 0 → (s2.ep_regs ⟨ep &&& 0x7f, hlt⟩).stat_tx = .nak) ∧
      (ep &&& 0x80 = 0 → (s2.ep_regs ⟨ep &&& 0x7f, hlt⟩).stat_rx = .valid)) ∧
    (ep &&& 0x80 ≠ 0 → (s.ep_regs ⟨ep &&& 0x7f, hlt⟩).stat_tx ≠ .stall →
      unstall s ep = some s) ∧
    (ep &&& 0x80 = 0 → (s.ep_regs ⟨ep &&& 0x7f, hlt⟩).stat_rx ≠ .stall →
      unstall s ep = some s) := by
  by_cases h80 : ep &&& 0x80 = 0
  · have he : ep &&& 0x7f = ep := land127_of_bit7_clear ep hep h80
    have hlt' : ep < NUM_ENDPOINTS := he ▸ hlt
    refine ⟨?_, ?_, ?_⟩
    · simp [stall, unstall, h80, hlt', he, Function.update_same]
    · intro hin
      exact absurd h80 hin
    · intro _ hnot
      simp only [he] at hnot
      simp [unstall, h80, hlt', he, hnot]
  · refine ⟨?_, ?_, ?_⟩
    · simp [stall, unstall, h80, hlt, Function.update_same]
    · intro _ hnot
      simp [unstall, h80, hlt, hnot]
    · intro hout
      exact absurd hout h80
/-- Closed instance of `stall_unstall_round_trip` at the IN endpoint 0x81
of `pendingReadState`. -/
theorem stall_unstall_round_trip_witness :
    (∃ s1 s2, stall pendingReadState 0x81 = some s1 ∧
      unstall s1 0x81 = some s2 ∧
      (0x81 &&& 0x80 ≠ 0 →
        (s2.ep_regs ⟨0x81 &&& 0x7f, by decide⟩).stat_tx = .nak) ∧
      (0x81 &&& 0x80 = 0 →
        (s2.ep_regs ⟨0x81 &&& 0x7f, by decide⟩).stat_rx = .valid)) ∧
    (0x81 &&& 0x80 ≠ 0 →
      (pendingReadState.ep_regs ⟨0x81 &&& 0x7f, by decide⟩).stat_tx ≠ .stall →
      unstall pendingReadState 0x81 = some pendingReadState) ∧
    (0x81 &&& 0x80 = 0 →
      (pendingReadState.ep_regs ⟨0x81 &&& 0x7f, by decide⟩).stat_rx ≠ .stall →
      unstall pendingReadState 0x81 = some pendingReadState) :=
  stall_unstall_round_trip pendingReadState 0x81 (by decide) (by decide)

/-- C9: unlike `read` and `write`, `stall` and `unstall` perform no range
check — for an 8-bit endpoint address whose 7-bit index is at or above the
hardware endpoint count, the register-array lookup is out of bounds and the
total embedding yields `none` rather than an error result. -/
theorem stall_unstall_out_of_range (s : UsbBusState) (ep : Nat)
    (hep : ep < 256) (hge : NUM_ENDPOINTS ≤ ep &&& 0x7f) :
    stall s ep = none ∧ unstall s ep = none := by
  have hnlt : ¬ (ep &&& 0x7f < NUM_ENDPOINTS) := Nat.not_lt.mpr hge
  constructor
  · by_cases h80 : ep &&& 0x80 = 0
    · have he : ep &&& 0x7f = ep := land127_of_bit7_clear ep hep h80
      have hnlt' : ¬ ep < NUM_ENDPOINTS := he ▸ hnlt
      simp [stall, h80, hnlt']
    · simp [stall, h80, hnlt]
  · simp [unstall, hnlt]

/-- Closed instance of `stall_unstall_out_of_range` at index 8, the first
out-of-range slot. -/
theorem stall_unstall_out_of_range_witness :
    stall pendingReadState 8 = none ∧ unstall pendingReadState 8 = none :=
  stall_unstall_out_of_range pendingReadState 8 (by decide) (by decide)

end Stm32Usb
